import Mathlib

/-!
Verification of the query orchestration pipeline (`src/query`).

The development shallowly embeds the Python sources:
* `queryprocessor.py` — the `QueryProcessor` pipeline (statement splitting,
  context assembly, adapter caching and teardown);
* `database.py` — backend dispatch, the MySQL constructor validation, and
  the HTTP response parsing (CSV and JSON modes).

Python dictionaries are modelled as insertion-ordered association lists,
Python strings as Lean strings with list-of-characters implementations of
`split`, `strip` and `lower`, and dynamically-typed Python values as the
inductive type `PyVal`.  External collaborators (the Jinja template engine,
the network, the DB drivers) are modelled as oracle functions supplied as
parameters, so theorems quantify over every possible collaborator
behaviour.
-/

namespace QuerySpec

/-- A dynamically-typed Python value: `None`, booleans, integers, strings,
lists, and string-keyed dictionaries (as insertion-ordered assoc lists). -/
inductive PyVal where
  | null
  | bool (b : Bool)
  | int (n : Int)
  | str (s : String)
  | list (xs : List PyVal)
  | dict (kvs : List (String × PyVal))

/-- Characters Python's `str.strip()` removes (ASCII whitespace). -/
def isPySpace (c : Char) : Bool :=
  c = ' ' || c = '\t' || c = '\n' || c = '\x0d' || c = '\x0b' || c = '\x0c'

/-- Strip `isPySpace` characters from both ends of a character list. -/
def stripChars (cs : List Char) : List Char :=
  ((cs.dropWhile isPySpace).reverse.dropWhile isPySpace).reverse

/-- Python's `str.strip()` (for ASCII whitespace). -/
def pyStrip (s : String) : String := ⟨stripChars s.data⟩

/-- Worker for `pySplit`: split a character list on a separator character,
keeping empty fragments, exactly like Python's `str.split(sep)`. -/
def splitCharAux : List Char → Char → List Char → List (List Char)
  | [], _, acc => [acc.reverse]
  | c :: cs, sep, acc =>
    if c = sep then acc.reverse :: splitCharAux cs sep []
    else splitCharAux cs sep (c :: acc)

/-- Python's `str.split(sep)` for a single-character separator. -/
def pySplit (s : String) (sep : Char) : List String :=
  (splitCharAux s.data sep []).map (fun cs => ⟨cs⟩)

/-- Python's `str.lower()` (ASCII case folding). -/
def pyLower (s : String) : String := ⟨s.data.map Char.toLower⟩

/-- Lookup in an insertion-ordered dictionary (`d.get(k)` / `d[k]`). -/
def dictGet {α : Type} : List (String × α) → String → Option α
  | [], _ => Option.none
  | (k', v) :: rest, k => if k' = k then some v else dictGet rest k

/-- Assignment `d[k] = v` on an insertion-ordered dictionary: an existing
key keeps its position and gets the new value, a new key is appended. -/
def dictSet {α : Type} : List (String × α) → String → α → List (String × α)
  | [], k, v => [(k, v)]
  | (k', v') :: rest, k, v =>
    if k' = k then (k, v) :: rest else (k', v') :: dictSet rest k v

/-- `d.get(k)` with Python's `None` default, on `PyVal` dictionaries. -/
def dictGetD (kvs : List (String × PyVal)) (k : String) : PyVal :=
  (dictGet kvs k).getD .null

/-! ## Context Assembler (`QueryProcessor._update_data_structure`) -/

/-- `results[0] if len(results) == 1 else results`: a single row collapses
to the row itself, anything else stays the full ordered sequence. -/
def collapse (results : List PyVal) : PyVal :=
  match results with
  | [r] => r
  | rs => .list rs

/-- Split a nonempty list into its leading elements and its last element
(`parts[:-1]`, `parts[-1]`); the empty list yields `([], "")`. -/
def initLast : List String → List String × String
  | [] => ([], "")
  | [x] => ([], x)
  | x :: y :: rest =>
    let (i, l) := initLast (y :: rest)
    (x :: i, l)

/-- Descend from a dictionary through the intermediate path segments,
creating an empty dictionary for each segment that is absent and reusing
an existing dictionary, then assign `v` at the leaf segment.  A non-dict
value sitting at an intermediate segment is a `TypeError` in the Python
code, modelled as `Option.none`. -/
def descendAssign : List (String × PyVal) → List String → String → PyVal →
    Option (List (String × PyVal))
  | kvs, [], leaf, v => some (dictSet kvs leaf v)
  | kvs, p :: ps, leaf, v =>
    match dictGet kvs p with
    | some (.dict sub) =>
      (descendAssign sub ps leaf v).map (fun sub' => dictSet kvs p (.dict sub'))
    | some _ => Option.none
    | Option.none =>
      (descendAssign [] ps leaf v).map (fun sub' => dictSet kvs p (.dict sub'))

/-- `QueryProcessor._update_data_structure(table, results)`: split the
dotted path, collapse the results, and either assign directly (one
segment) or descend through `parts[:-1]` and assign at `parts[-1]`. -/
def updateDataStructure (data : List (String × PyVal)) (table : String)
    (results : List PyVal) : Option (List (String × PyVal)) :=
  let parts := pySplit table '.'
  let value := collapse results
  match parts with
  | [] => Option.none
  | [p] => some (dictSet data p value)
  | p :: q :: rest =>
    let (inter, leaf) := initLast (p :: q :: rest)
    descendAssign data inter leaf value

/-- Reading a dotted path back out of the nested context: follow the
segments through nested dictionaries; the last segment is a plain lookup. -/
def pathGet : List (String × PyVal) → List String → Option PyVal
  | kvs, [k] => dictGet kvs k
  | kvs, k :: k' :: rest =>
    match dictGet kvs k with
    | some (.dict sub) => pathGet sub (k' :: rest)
    | _ => Option.none
  | _, [] => Option.none

/-! ## Statement splitting (`QueryProcessor._process_query`) -/

/-- `[q.strip() for q in rendered_query.split(";") if q.strip()]`:
split the rendered text on the `;` delimiter, strip each fragment and
discard the fragments that are empty after stripping. -/
def splitStatements (rendered : String) : List String :=
  ((pySplit rendered ';').map pyStrip).filter (fun q => q != "")

/-- The execution loop of `_process_query`: for each statement (skipping
falsy, i.e. empty, ones) call `adapter.execute_query(stmt.strip())` and
extend the accumulated row list; the first backend error aborts the loop
(fail-fast). `exec` is the backend oracle. -/
def execStatements (exec : String → Except String (List PyVal)) :
    List String → Except String (List PyVal)
  | [] => .ok []
  | q :: qs =>
    if q != "" then
      match exec (pyStrip q) with
      | .error e => .error e
      | .ok rows => (execStatements exec qs).map (fun rest => rows ++ rest)
    else execStatements exec qs

/-- One query step's statement execution: split the rendered text into
statements, run them in order against the adapter, concatenating the rows
returned, in statement order. -/
def runStatements (exec : String → Except String (List PyVal))
    (rendered : String) : Except String (List PyVal) :=
  execStatements exec (splitStatements rendered)

/-! ## Adapter settings and the MySQL constructor (`database.py`) -/

/-- The `AdapterSettings` dataclass: every field other than the kind is
optional (`None` by default in the Python dataclass). -/
structure AdapterSettings where
  adapter : String
  database : Option String
  pool_name : Option String
  user : Option String
  password : Option String
  host : Option String
  port : Option Int
  base_url : Option String
  base_path : Option String
  base_payload : Option (List (String × PyVal))
  base_headers : Option (List (String × PyVal))
  http_method : Option String

/-- Python truthiness of an optional string attribute: `None` and the
empty string are falsy. -/
def optStrTruthy : Option String → Bool
  | Option.none => false
  | some s => s != ""

/-- Python truthiness of an optional integer attribute: `None` and `0`
are falsy. -/
def optIntTruthy : Option Int → Bool
  | Option.none => false
  | some n => n != 0

/-- `required_attrs` of `MysqlDatabaseConnection.__init__`, in source
order. -/
def mysqlRequiredAttrs : List String := ["user", "password", "host", "port", "database"]

/-- `getattr(self.settings, attr, None)` truthiness for the attributes the
MySQL constructor checks. -/
def attrTruthy (s : AdapterSettings) : String → Bool
  | "user" => optStrTruthy s.user
  | "password" => optStrTruthy s.password
  | "host" => optStrTruthy s.host
  | "port" => optIntTruthy s.port
  | "database" => optStrTruthy s.database
  | _ => false

/-- `[attr for attr in required_attrs if not getattr(self.settings, attr, None)]`. -/
def mysqlMissingAttrs (s : AdapterSettings) : List String :=
  mysqlRequiredAttrs.filter (fun a => !(attrTruthy s a))

/-- The connection pool built by `_setup_connection_pool`, recording the
validated configuration it was built from. -/
structure MysqlPool where
  cfgUser : Option String
  cfgPassword : Option String
  cfgHost : Option String
  cfgPort : Option Int
  cfgDatabase : Option String
  poolName : String
  poolSize : Nat

/-- `MysqlDatabaseConnection.__init__`: raise a `ValueError` naming every
missing required attribute; only when none is missing build the config
and set up the pool (pool name defaults to `"pool"` when unset or empty,
pool size is fixed at 5). -/
def mysqlInit (s : AdapterSettings) : Except String MysqlPool :=
  let missing := mysqlMissingAttrs s
  if missing.isEmpty then
    .ok ⟨s.user, s.password, s.host, s.port, s.database,
      (match s.pool_name with
       | some p => if p = "" then "pool" else p
       | Option.none => "pool"),
      5⟩
  else
    .error ("Missing required settings for MySQL adapter: "
      ++ String.intercalate ", " missing)

/-! ## HTTP response parsing (`HttpDatabaseConnection`) -/

/-- Python `v == 1` on a dynamically-typed value (`True == 1` holds,
strings and containers never equal `1`). -/
def pyEqOne : PyVal → Bool
  | .int n => n == 1
  | .bool b => b
  | _ => false

/-- Python truthiness of a dynamically-typed value. -/
def pyTruthy : PyVal → Bool
  | .null => false
  | .bool b => b
  | .int n => n != 0
  | .str s => s != ""
  | .list xs => !xs.isEmpty
  | .dict kvs => !kvs.isEmpty

/-- The records `csv.reader` produces from a response body containing no
quoted fields: one record per line (a trailing newline does not open a
final empty line), an empty line giving the empty record `[]` and any
other line splitting on `,`. -/
def csvRecords (body : String) : List (List String) :=
  let ls := pySplit body '\n'
  let ls := if ls.getLast? = some "" then ls.dropLast else ls
  ls.map (fun line => if line = "" then [] else pySplit line ',')

/-- `{headers[i]: val for i, val in enumerate(row) if i < len(headers)}`:
pair each column with the header of the same index — columns beyond the
header count contribute nothing — and build a dict from the pairs in
order (a duplicate header keeps its first position, last value wins). -/
def rowDict (headers row : List String) : List (String × PyVal) :=
  (headers.zip row).foldl (fun acc kv => dictSet acc kv.1 (.str kv.2)) []

/-- `HttpDatabaseConnection._parse_csv_response`: the first record is the
header row (lowercased); each following record is skipped when empty and
otherwise zipped against the headers into a row dictionary.  An absent
header row is the `StopIteration` the Python code re-raises. -/
def parseCsvResponse (body : String) : Except String (List PyVal) :=
  match csvRecords body with
  | [] => .error "Failed to parse CSV response"
  | hdr :: rows =>
    let headers := hdr.map pyLower
    .ok (rows.filterMap (fun row =>
      if row.isEmpty then Option.none
      else some (.dict (rowDict headers row))))

/-- The Python `type(v)` display used in the JSON-shape error message. -/
def pyTypeName : PyVal → String
  | .null => "<class 'NoneType'>"
  | .bool _ => "<class 'bool'>"
  | .int _ => "<class 'int'>"
  | .str _ => "<class 'str'>"
  | .list _ => "<class 'list'>"
  | .dict _ => "<class 'dict'>"

/-- `HttpDatabaseConnection._parse_json_response`: a list is returned
as-is (one row per element, in order), a single dict is wrapped in a
one-element list, and any other shape raises a `ValueError`. -/
def parseJsonResponse : PyVal → Except String (List PyVal)
  | .list xs => .ok xs
  | .dict kvs => .ok [.dict kvs]
  | v => .error ("Unexpected JSON response type: " ++ pyTypeName v)

/-- `self.base_payload.get("csv") == 1 or payload.get("csv") == 1`:
the CSV-mode test of `HttpDatabaseConnection.query`. -/
def csvFlagSet (basePayload payload : List (String × PyVal)) : Bool :=
  pyEqOne (dictGetD basePayload "csv") || pyEqOne (dictGetD payload "csv")

/-- The response-handling tail of `HttpDatabaseConnection.query`, given
the already-received response (its raw text and its JSON value): parse as
CSV when the `csv` flag test fires, as JSON otherwise. -/
def httpHandleResponse (basePayload payload : List (String × PyVal))
    (respText : String) (respJson : PyVal) : Except String (List PyVal) :=
  if csvFlagSet basePayload payload then parseCsvResponse respText
  else parseJsonResponse respJson

/-! ## Backend dispatch (`DatabaseAdapter._get_connection`) -/

/-- The three backend classes a kind string can dispatch to. -/
inductive ConnectionClass where
  | sqliteDatabaseConnection
  | mysqlDatabaseConnection
  | httpDatabaseConnection
deriving DecidableEq

/-- The `connection_classes` dispatch table of
`DatabaseAdapter._get_connection`. -/
def connectionClasses : List (String × ConnectionClass) :=
  [("sqlite3", .sqliteDatabaseConnection),
   ("mysql", .mysqlDatabaseConnection),
   ("mysql2", .mysqlDatabaseConnection),
   ("http", .httpDatabaseConnection)]

/-- `DatabaseAdapter._get_connection` dispatch: lowercase the configured
kind, look it up in the table, and construct the matching class; an
unknown kind raises a `ValueError` naming the original kind string. -/
def getConnectionClass (adapterKind : String) : Except String ConnectionClass :=
  match dictGet connectionClasses (pyLower adapterKind) with
  | some c => .ok c
  | Option.none => .error ("Unsupported adapter: " ++ adapterKind)

/-! ## Pipeline orchestrator (`QueryProcessor.process`) -/

/-- One `Query` step of the configuration: dotted table path, adapter
name, query template text. -/
structure QueryCfg where
  table : String
  adapter : String
  query : String

/-- The loaded configuration: the declared adapter names (keys of
`adapter_settings`), the ordered query steps, and the output section's
template and static `template_context`. -/
structure Config where
  adapterNames : List String
  queries : List QueryCfg
  outputTemplate : String
  templateContext : PyVal

/-- The external collaborators of one pipeline run: the template engine's
`render(template, data)`, each adapter's `execute_query(statement)`
(keyed by adapter name), and each adapter's `close()` behaviour. -/
structure Oracle where
  render : String → List (String × PyVal) → Except String String
  exec : String → String → Except String (List PyVal)
  closeB : String → Except String Unit

/-- The mutable state of one `QueryProcessor` run: the context `data`,
the adapter cache (insertion-ordered names), and the log of `close`
invocations issued so far. -/
structure PState where
  data : List (String × PyVal)
  adapters : List String
  closeCalls : List String

/-- `QueryProcessor._get_adapter`: return the cached adapter, or cache a
new one when its settings are declared, or raise. -/
def getAdapterSt (cfg : Config) (st : PState) (name : String) :
    PState × Option String :=
  if name ∈ st.adapters then (st, Option.none)
  else if name ∈ cfg.adapterNames then
    (⟨st.data, st.adapters ++ [name], st.closeCalls⟩, Option.none)
  else (st, some ("Adapter settings not found for: " ++ name))

/-- One `Executing(i)` step: render the query template against the
current context, fetch (possibly instantiating) the adapter, run the
split statements, and merge the rows into the context at the step's
table path.  The returned state keeps every mutation made before a
failure (in particular a freshly cached adapter). -/
def processStep (cfg : Config) (o : Oracle) (st : PState) (q : QueryCfg) :
    PState × Option String :=
  match o.render q.query st.data with
  | .error e => (st, some e)
  | .ok rendered =>
    match getAdapterSt cfg st q.adapter with
    | (st1, some e) => (st1, some e)
    | (st1, Option.none) =>
      match runStatements (o.exec q.adapter) rendered with
      | .error e => (st1, some e)
      | .ok rows =>
        match updateDataStructure st1.data q.table rows with
        | some d' => (⟨d', st1.adapters, st1.closeCalls⟩, Option.none)
        | Option.none => (st1, some "TypeError")

/-- Run the query steps in declared order, stopping at the first
failure (fail-fast). -/
def runSteps (cfg : Config) (o : Oracle) (st : PState) :
    List QueryCfg → PState × Option String
  | [] => (st, Option.none)
  | q :: qs =>
    match processStep cfg o st q with
    | (st', some e) => (st', some e)
    | (st', Option.none) => runSteps cfg o st' qs

/-- The `try` body of `QueryProcessor.process`: run every step, then
render the output template against the context extended with the static
`template_context`, stripping the rendered document.  The final state is
returned alongside the result so the `finally` teardown can act on it. -/
def runPipeline (cfg : Config) (o : Oracle) (st : PState) :
    Except String String × PState :=
  match runSteps cfg o st cfg.queries with
  | (st', some e) => (.error e, st')
  | (st', Option.none) =>
    match o.render cfg.outputTemplate
        (dictSet st'.data "template_context" cfg.templateContext) with
    | .error e => (.error e, st')
    | .ok doc => (.ok (pyStrip doc), st')

/-- The loop of `QueryProcessor.close`: invoke `close` on each cached
adapter in cache order.  An exception from one `close` aborts the loop —
the remaining adapters are not closed and the cache is not cleared;
only after every `close` returned is the cache cleared. -/
def closeAllGo (closeB : String → Except String Unit) :
    List String → PState → PState × Option String
  | [], st => (⟨st.data, [], st.closeCalls⟩, Option.none)
  | a :: rest, st =>
    match closeB a with
    | .ok _ => closeAllGo closeB rest ⟨st.data, st.adapters, st.closeCalls ++ [a]⟩
    | .error e => (⟨st.data, st.adapters, st.closeCalls ++ [a]⟩, some e)

/-- `QueryProcessor.close()`. -/
def closeAll (o : Oracle) (st : PState) : PState × Option String :=
  closeAllGo o.closeB st.adapters st

/-- The state at the start of a run: caller-supplied initial data, no
cached adapters, no close calls. -/
def initState (d : List (String × PyVal)) : PState := ⟨d, [], []⟩

/-- `QueryProcessor.process()` with its `finally: self.close()`: run the
pipeline, then close all cached adapters; with Python's `finally`
semantics an exception escaping `close` replaces the pipeline's result
or error as what the caller receives. -/
def process (cfg : Config) (o : Oracle) (d : List (String × PyVal)) :
    Except String String × PState :=
  match runPipeline cfg o (initState d) with
  | (res, st) =>
    match closeAll o st with
    | (st', some ce) => (.error ce, st')
    | (st', Option.none) => (res, st')

/-! ## Dictionary and path lemmas -/

theorem dictGet_dictSet_self {α : Type} (kvs : List (String × α)) (k : String) (v : α) :
    dictGet (dictSet kvs k v) k = some v := by
  induction kvs with
  | nil => simp [dictGet, dictSet]
  | cons hd tl ih =>
    obtain ⟨k0, v0⟩ := hd
    by_cases h0 : k0 = k
    · subst h0; simp [dictSet, dictGet]
    · simp [dictSet, h0, dictGet, ih]

theorem dictGet_dictSet_ne {α : Type} (kvs : List (String × α)) (k k' : String) (v : α)
    (h : k' ≠ k) : dictGet (dictSet kvs k v) k' = dictGet kvs k' := by
  induction kvs with
  | nil => simp [dictGet, dictSet, Ne.symm h]
  | cons hd tl ih =>
    obtain ⟨k0, v0⟩ := hd
    by_cases h0 : k0 = k
    · subst h0
      simp only [dictSet, if_pos rfl, dictGet]
      simp [Ne.symm h]
    · simp only [dictSet, if_neg h0, dictGet]
      by_cases h1 : k0 = k' <;> simp [h1, ih]

theorem pathGet_nil : ∀ l : List String, pathGet [] l = Option.none := by
  intro l
  cases l with
  | nil => rfl
  | cons a as => cases as <;> simp [pathGet, dictGet]

theorem pathGet_cons_cons (kvs : List (String × PyVal)) (k a : String) (as : List String) :
    pathGet kvs (k :: a :: as) =
      (match dictGet kvs k with
       | some (.dict sub) => pathGet sub (a :: as)
       | _ => Option.none) := rfl

theorem initLast_append (l : List String) (x : String) : initLast (l ++ [x]) = (l, x) := by
  induction l with
  | nil => rfl
  | cons a as ih =>
    cases hab : as ++ [x] with
    | nil => simp at hab
    | cons b bs =>
      simp only [List.cons_append, hab, initLast]
      rw [← hab, ih]

/-- Assigning through `descendAssign` makes the value readable back at the
full path. -/
theorem pathGet_descendAssign :
    ∀ (inter : List String) (kvs kvs' : List (String × PyVal)) (leaf : String) (v : PyVal),
      descendAssign kvs inter leaf v = some kvs' →
      pathGet kvs' (inter ++ [leaf]) = some v := by
  intro inter
  induction inter with
  | nil =>
    intro kvs kvs' leaf v h
    simp only [descendAssign, Option.some.injEq] at h
    subst h
    simp [pathGet, dictGet_dictSet_self]
  | cons p ps ih =>
    intro kvs kvs' leaf v h
    simp only [descendAssign] at h
    obtain ⟨a, as, hcons⟩ : ∃ a as, ps ++ [leaf] = a :: as := by
      cases ps <;> exact ⟨_, _, rfl⟩
    split at h
    · next sub heq =>
      cases hsub : descendAssign sub ps leaf v with
      | none => rw [hsub] at h; simp at h
      | some sub' =>
        rw [hsub] at h
        simp only [Option.map_some', Option.some.injEq] at h
        subst h
        have hrec := ih sub sub' leaf v hsub
        rw [List.cons_append, hcons, pathGet_cons_cons, dictGet_dictSet_self]
        rw [hcons] at hrec
        simpa using hrec
    · next heq hne => simp at h
    · next heq =>
      cases hsub : descendAssign [] ps leaf v with
      | none => rw [hsub] at h; simp at h
      | some sub' =>
        rw [hsub] at h
        simp only [Option.map_some', Option.some.injEq] at h
        subst h
        have hrec := ih [] sub' leaf v hsub
        rw [List.cons_append, hcons, pathGet_cons_cons, dictGet_dictSet_self]
        rw [hcons] at hrec
        simpa using hrec

/-- Frame property of `descendAssign`: at every level along the travelled
path, keys other than the next path segment read back unchanged. -/
theorem pathGet_descendAssign_frame :
    ∀ (inter : List String) (kvs kvs' : List (String × PyVal)) (leaf : String) (v : PyVal),
      descendAssign kvs inter leaf v = some kvs' →
      ∀ (i : Nat) (k : String), i ≤ inter.length →
        k ≠ (inter ++ [leaf]).getD i "" →
        pathGet kvs' (inter.take i ++ [k]) = pathGet kvs (inter.take i ++ [k]) := by
  intro inter
  induction inter with
  | nil =>
    intro kvs kvs' leaf v h i k hi hk
    have hi0 : i = 0 := Nat.le_zero.mp hi
    subst hi0
    simp only [descendAssign, Option.some.injEq] at h
    subst h
    simp only [List.take_nil, List.nil_append, pathGet]
    exact dictGet_dictSet_ne kvs leaf k v (by simpa using hk)
  | cons p ps ih =>
    intro kvs kvs' leaf v h i k hi hk
    simp only [descendAssign] at h
    split at h
    · next sub heq =>
      cases hsub : descendAssign sub ps leaf v with
      | none => rw [hsub] at h; simp at h
      | some sub' =>
        rw [hsub] at h
        simp only [Option.map_some', Option.some.injEq] at h
        subst h
        cases i with
        | zero =>
          simp only [List.take_zero, List.nil_append, pathGet]
          exact dictGet_dictSet_ne kvs p k (.dict sub') (by simpa using hk)
        | succ j =>
          have hj : j ≤ ps.length := by simpa using hi
          have hkj : k ≠ (ps ++ [leaf]).getD j "" := by simpa using hk
          have hrec := ih sub sub' leaf v hsub j k hj hkj
          obtain ⟨a, as, hcons⟩ : ∃ a as, List.take j ps ++ [k] = a :: as := by
            cases List.take j ps <;> exact ⟨_, _, rfl⟩
          rw [hcons] at hrec
          simp only [List.take_succ_cons, List.cons_append, hcons, pathGet_cons_cons,
            dictGet_dictSet_self, heq]
          exact hrec
    · next heq hne => simp at h
    · next heq =>
      cases hsub : descendAssign [] ps leaf v with
      | none => rw [hsub] at h; simp at h
      | some sub' =>
        rw [hsub] at h
        simp only [Option.map_some', Option.some.injEq] at h
        subst h
        cases i with
        | zero =>
          simp only [List.take_zero, List.nil_append, pathGet]
          exact dictGet_dictSet_ne kvs p k (.dict sub') (by simpa using hk)
        | succ j =>
          have hj : j ≤ ps.length := by simpa using hi
          have hkj : k ≠ (ps ++ [leaf]).getD j "" := by simpa using hk
          have hrec := ih [] sub' leaf v hsub j k hj hkj
          obtain ⟨a, as, hcons⟩ : ∃ a as, List.take j ps ++ [k] = a :: as := by
            cases List.take j ps <;> exact ⟨_, _, rfl⟩
          rw [hcons] at hrec
          simp only [List.take_succ_cons, List.cons_append, hcons, pathGet_cons_cons,
            dictGet_dictSet_self, heq]
          rw [hrec]
          exact pathGet_nil _

/-- The leading segments and last segment produced by `initLast`
reassemble to the original nonempty list. -/
theorem initLast_fst_append_snd :
    ∀ (x : String) (xs : List String),
      (initLast (x :: xs)).1 ++ [(initLast (x :: xs)).2] = x :: xs := by
  intro x xs
  induction xs generalizing x with
  | nil => rfl
  | cons y ys ih =>
    cases hyl : initLast (y :: ys) with
    | mk i l =>
      have hstep : initLast (x :: y :: ys) = (x :: i, l) := by
        simp [initLast, hyl]
      rw [hstep]
      have := ih y
      rw [hyl] at this
      simpa using this

/-- A multi-segment table path routes `_update_data_structure` through
`descendAssign` with the leading segments as intermediates and the last
segment as the leaf. -/
theorem updateDataStructure_multi (data : List (String × PyVal)) (table : String)
    (rows : List PyVal) (inter : List String) (leaf : String)
    (hsplit : pySplit table '.' = inter ++ [leaf]) (hinter : inter ≠ []) :
    updateDataStructure data table rows = descendAssign data inter leaf (collapse rows) := by
  obtain ⟨p, ps, hp⟩ : ∃ p ps, inter = p :: ps := by
    cases inter with
    | nil => exact absurd rfl hinter
    | cons p ps => exact ⟨p, ps, rfl⟩
  subst hp
  obtain ⟨a, as, hcons⟩ : ∃ a as, ps ++ [leaf] = a :: as := by
    cases ps <;> exact ⟨_, _, rfl⟩
  have hil : initLast (p :: a :: as) = (p :: ps, leaf) := by
    rw [← hcons, ← List.cons_append]
    exact initLast_append (p :: ps) leaf
  simp only [updateDataStructure, hsplit, List.cons_append, hcons, hil]

/-- Claim C2: for every dotted path and result sequence, assembly stores
`rows[0]` at the path when there is exactly one row and the whole ordered
sequence otherwise; a one-segment path is assigned directly at that key;
a multi-segment path `a.b.c` on an empty context yields the nested
mapping `{a: {b: {c: value}}}`. -/
theorem assemble_stores_collapsed_value_at_path :
    (∀ r : PyVal, collapse [r] = r) ∧
    (∀ rows : List PyVal, rows.length ≠ 1 → collapse rows = .list rows) ∧
    (∀ (data : List (String × PyVal)) (table : String) (rows : List PyVal)
        (data' : List (String × PyVal)),
      updateDataStructure data table rows = some data' →
      pathGet data' (pySplit table '.') = some (collapse rows)) ∧
    (∀ (data : List (String × PyVal)) (table seg : String) (rows : List PyVal),
      pySplit table '.' = [seg] →
      updateDataStructure data table rows = some (dictSet data seg (collapse rows))) ∧
    (∀ (table a b c : String) (rows : List PyVal),
      pySplit table '.' = [a, b, c] →
      updateDataStructure [] table rows =
        some [(a, .dict [(b, .dict [(c, collapse rows)])])]) := by
  refine ⟨fun r => rfl, ?_, ?_, ?_, ?_⟩
  · intro rows h
    match rows with
    | [] => rfl
    | [r] => exact absurd rfl h
    | r1 :: r2 :: rs => rfl
  · intro data table rows data' h
    cases hsplit : pySplit table '.' with
    | nil => simp [updateDataStructure, hsplit] at h
    | cons p rest =>
      cases rest with
      | nil =>
        simp only [updateDataStructure, hsplit, Option.some.injEq] at h
        subst h
        simp [pathGet, dictGet_dictSet_self]
      | cons q rest' =>
        cases hil : initLast (p :: q :: rest') with
        | mk inter leaf =>
          have hre : inter ++ [leaf] = p :: q :: rest' := by
            have := initLast_fst_append_snd p (q :: rest')
            rw [hil] at this
            simpa using this
          have hinter : inter ≠ [] := by
            intro hemp
            rw [hemp] at hre
            simp at hre
          have hmulti := updateDataStructure_multi data table rows inter leaf
            (by rw [hsplit, hre]) hinter
          rw [hmulti] at h
          rw [← hre]
          exact pathGet_descendAssign inter data data' leaf (collapse rows) h
  · intro data table seg rows hsplit
    simp [updateDataStructure, hsplit]
  · intro table a b c rows hsplit
    have h := updateDataStructure_multi [] table rows [a, b] c
      (by simpa using hsplit) (by simp)
    rw [h]
    rfl

/-- Witness for claim C2: `a.b.c` on the empty context with a two-row
result nests the full sequence; a one-segment path with a single row
assigns the row itself directly at the key. -/
theorem assemble_stores_collapsed_value_at_path_witness :
    updateDataStructure [] "a.b.c" [.int 1, .int 2] =
      some [("a", .dict [("b", .dict [("c", .list [.int 1, .int 2])])])] ∧
    updateDataStructure [("k", .int 9)] "users" [.dict [("id", .int 7)]] =
      some [("k", .int 9), ("users", .dict [("id", .int 7)])] :=
  ⟨assemble_stores_collapsed_value_at_path.2.2.2.2 "a.b.c" "a" "b" "c"
      [.int 1, .int 2] (by decide),
   assemble_stores_collapsed_value_at_path.2.2.2.1 [("k", .int 9)] "users" "users"
      [.dict [("id", .int 7)]] (by decide)⟩

/-- Claim C9: re-running assembly for a multi-segment path replaces only
the leaf; at every level along the path, every key other than the next
path segment (in particular every sibling already present under an
existing intermediate mapping) reads back unchanged. -/
theorem reassembly_preserves_intermediates_and_siblings
    (data data' : List (String × PyVal)) (table : String) (rows : List PyVal)
    (inter : List String) (leaf : String)
    (hsplit : pySplit table '.' = inter ++ [leaf]) (hinter : inter ≠ [])
    (hupd : updateDataStructure data table rows = some data') :
    pathGet data' (inter ++ [leaf]) = some (collapse rows) ∧
    (∀ (i : Nat) (k : String), i ≤ inter.length →
      k ≠ (inter ++ [leaf]).getD i "" →
      pathGet data' (inter.take i ++ [k]) = pathGet data (inter.take i ++ [k])) := by
  have hmulti := updateDataStructure_multi data table rows inter leaf hsplit hinter
  rw [hmulti] at hupd
  exact ⟨pathGet_descendAssign inter data data' leaf (collapse rows) hupd,
    fun i k hi hk =>
      pathGet_descendAssign_frame inter data data' leaf (collapse rows) hupd i k hi hk⟩

/-- Witness for claim C9: re-assembling `a.b.c` over an existing context
replaces the leaf `c` and leaves the sibling `d` under `a.b` unchanged. -/
theorem reassembly_preserves_intermediates_and_siblings_witness :
    pathGet [("a", .dict [("b", .dict [("c", .int 9), ("d", .int 2)]), ("e", .int 3)])]
        ["a", "b", "c"] = some (.int 9) ∧
    pathGet [("a", .dict [("b", .dict [("c", .int 9), ("d", .int 2)]), ("e", .int 3)])]
        ["a", "b", "d"] =
      pathGet [("a", .dict [("b", .dict [("c", .int 1), ("d", .int 2)]), ("e", .int 3)])]
        ["a", "b", "d"] := by
  have H := reassembly_preserves_intermediates_and_siblings
    [("a", .dict [("b", .dict [("c", .int 1), ("d", .int 2)]), ("e", .int 3)])]
    [("a", .dict [("b", .dict [("c", .int 9), ("d", .int 2)]), ("e", .int 3)])]
    "a.b.c" [.int 9] ["a", "b"] "c" (by decide) (by decide) rfl
  exact ⟨H.1, H.2 2 "d" (by decide) (by decide)⟩

/-! ## Claim C4: statement splitting and concatenation -/

/-- When every statement succeeds, the execution loop returns the
concatenation, in order, of the row lists of the non-empty statements. -/
theorem execStatements_ok (execF : String → List PyVal) (l : List String) :
    execStatements (fun q => .ok (execF q)) l =
      .ok (((l.filter (fun q => q != "")).map (fun q => execF (pyStrip q))).flatten) := by
  induction l with
  | nil => rfl
  | cons q qs ih =>
    by_cases h : (q != "") = true
    · simp [execStatements, h, ih, Except.map]
    · simp [execStatements, h, ih]

/-- A never-failing adapter makes `runStatements` return the joined row
lists of the split statements, in statement order. -/
theorem runStatements_ok (execF : String → List PyVal) (rendered : String) :
    runStatements (fun q => .ok (execF q)) rendered =
      .ok (((splitStatements rendered).map (fun q => execF (pyStrip q))).flatten) := by
  unfold runStatements
  rw [execStatements_ok]
  have hf : (splitStatements rendered).filter (fun q => q != "") = splitStatements rendered := by
    simp [splitStatements, List.filter_filter]
  rw [hf]

/-- Claim C4: the rendered query text is split on `;`, whitespace-only
fragments are discarded, the remaining statements execute in sequence
with their rows concatenated in statement order, and the rendering
`"SELECT 1;  ; SELECT 2;"` yields exactly the two statements
`SELECT 1` and `SELECT 2`. -/
theorem split_statements_execute_in_order :
    (splitStatements "SELECT 1;  ; SELECT 2;" = ["SELECT 1", "SELECT 2"]) ∧
    (∀ (execF : String → List PyVal) (rendered : String),
      runStatements (fun q => .ok (execF q)) rendered =
        .ok (((splitStatements rendered).map (fun q => execF (pyStrip q))).flatten)) ∧
    (∀ execF : String → List PyVal,
      runStatements (fun q => .ok (execF q)) "SELECT 1;  ; SELECT 2;" =
        .ok (execF "SELECT 1" ++ execF "SELECT 2")) := by
  refine ⟨by decide, runStatements_ok, ?_⟩
  intro execF
  rw [runStatements_ok]
  have hs : splitStatements "SELECT 1;  ; SELECT 2;" = ["SELECT 1", "SELECT 2"] := by decide
  rw [hs]
  have hp1 : pyStrip "SELECT 1" = "SELECT 1" := by decide
  have hp2 : pyStrip "SELECT 2" = "SELECT 2" := by decide
  simp [hp1, hp2]

/-! ## Claim C5: MySQL constructor validation -/

/-- Claim C5: whenever at least one required field is missing (absent or
falsy), the MySQL constructor raises a `ValueError` whose message
enumerates exactly the missing field names (in `required_attrs` order),
and no pool is ever created. -/
theorem mysql_missing_fields_error (s : AdapterSettings)
    (h : mysqlMissingAttrs s ≠ []) :
    mysqlInit s = .error ("Missing required settings for MySQL adapter: "
      ++ String.intercalate ", " (mysqlMissingAttrs s)) ∧
    (∀ a, a ∈ mysqlMissingAttrs s ↔ a ∈ mysqlRequiredAttrs ∧ attrTruthy s a = false) ∧
    (∀ p, mysqlInit s ≠ .ok p) := by
  have hne : (mysqlMissingAttrs s).isEmpty = false := by
    cases hm : mysqlMissingAttrs s with
    | nil => exact absurd hm h
    | cons a as => rfl
  refine ⟨?_, ?_, ?_⟩
  · simp [mysqlInit, hne]
  · intro a
    simp [mysqlMissingAttrs, List.mem_filter]
  · intro p hc
    simp [mysqlInit, hne] at hc

/-- The settings of the C5 witness: `password` is `None` and `host` is
the empty string; the remaining required fields are present. -/
def mysqlSettingsW : AdapterSettings :=
  ⟨"mysql", some "db", Option.none, some "u", Option.none, some "", some 3306,
   Option.none, Option.none, Option.none, Option.none, Option.none⟩

/-- Witness for claim C5: omitting `password` and leaving `host` empty
raises the configuration error naming exactly `password, host`. -/
theorem mysql_missing_fields_error_witness :
    mysqlInit mysqlSettingsW =
      .error "Missing required settings for MySQL adapter: password, host" := by
  have H := (mysql_missing_fields_error mysqlSettingsW (by decide)).1
  rw [H]
  exact congrArg Except.error (by decide)

/-! ## Claim C6: CSV/JSON format selection -/

/-- A boolean-like `csv` flag value: absent (`None`), a boolean, or the
integers 0/1. -/
def boolLike (v : PyVal) : Prop :=
  v = .null ∨ v = .bool false ∨ v = .bool true ∨ v = .int 0 ∨ v = .int 1

/-- On boolean-like values Python's `v == 1` coincides with truthiness. -/
theorem pyEqOne_eq_pyTruthy_of_boolLike (v : PyVal) (h : boolLike v) :
    pyEqOne v = pyTruthy v := by
  rcases h with rfl | rfl | rfl | rfl | rfl <;> rfl

/-- Claim C6: for boolean-like `csv` flags, the HTTP response is parsed
as CSV exactly when the flag is truthy in either the default payload or
the per-call payload, and as JSON otherwise. -/
theorem http_csv_flag_selects_format
    (basePayload payload : List (String × PyVal)) (respText : String) (respJson : PyVal)
    (hb : boolLike (dictGetD basePayload "csv"))
    (hp : boolLike (dictGetD payload "csv")) :
    httpHandleResponse basePayload payload respText respJson =
      (if pyTruthy (dictGetD basePayload "csv") || pyTruthy (dictGetD payload "csv")
       then parseCsvResponse respText
       else parseJsonResponse respJson) := by
  unfold httpHandleResponse csvFlagSet
  rw [pyEqOne_eq_pyTruthy_of_boolLike _ hb, pyEqOne_eq_pyTruthy_of_boolLike _ hp]

/-- Witness for claim C6: a truthy boolean `csv` flag in the default
payload selects CSV parsing; with no flag anywhere the body is parsed
as JSON. -/
theorem http_csv_flag_selects_format_witness :
    httpHandleResponse [("csv", .bool true)] [] "ID,Name\n1,Ann" (.dict []) =
      parseCsvResponse "ID,Name\n1,Ann" ∧
    httpHandleResponse [] [] "irrelevant" (.list [.int 1]) =
      parseJsonResponse (.list [.int 1]) :=
  ⟨http_csv_flag_selects_format [("csv", .bool true)] [] "ID,Name\n1,Ann" (.dict [])
      (Or.inr (Or.inr (Or.inl rfl))) (Or.inl rfl),
   http_csv_flag_selects_format [] [] "irrelevant" (.list [.int 1])
      (Or.inl rfl) (Or.inl rfl)⟩

/-! ## Claim C8: JSON response shapes -/

/-- Claim C8: a JSON array yields its elements as rows in order, a JSON
object yields exactly one row wrapping it, and any other shape raises a
backend error; in particular `{"x":1}` gives one row and
`[{"x":1},{"x":2}]` gives two. -/
theorem json_response_shapes :
    (∀ xs : List PyVal, parseJsonResponse (.list xs) = .ok xs) ∧
    (∀ kvs, parseJsonResponse (.dict kvs) = .ok [.dict kvs]) ∧
    (∀ v : PyVal, (∀ xs, v ≠ .list xs) → (∀ kvs, v ≠ .dict kvs) →
      parseJsonResponse v = .error ("Unexpected JSON response type: " ++ pyTypeName v)) ∧
    (parseJsonResponse (.dict [("x", .int 1)]) = .ok [.dict [("x", .int 1)]]) ∧
    (parseJsonResponse (.list [.dict [("x", .int 1)], .dict [("x", .int 2)]]) =
      .ok [.dict [("x", .int 1)], .dict [("x", .int 2)]]) := by
  refine ⟨fun xs => rfl, fun kvs => rfl, ?_, rfl, rfl⟩
  intro v hl hd
  cases v with
  | list xs => exact absurd rfl (hl xs)
  | dict kvs => exact absurd rfl (hd kvs)
  | null => rfl
  | bool b => rfl
  | int n => rfl
  | str s => rfl

/-- Witness for claim C8: a bare number is rejected with the shape
error. -/
theorem json_response_shapes_witness :
    parseJsonResponse (.int 3) = .error "Unexpected JSON response type: <class 'int'>" :=
  json_response_shapes.2.2.1 (.int 3) (fun _ h => nomatch h) (fun _ h => nomatch h)

/-! ## Claim C10: backend-kind dispatch -/

/-- Claim C10: dispatch lowercases the configured kind; `sqlite3`,
`mysql`/`mysql2` and `http` (in any letter case) select the matching
backend class, and any other kind raises a configuration error naming
the offending kind string. -/
theorem adapter_kind_dispatch (s : String) :
    (pyLower s = "sqlite3" → getConnectionClass s = .ok .sqliteDatabaseConnection) ∧
    (pyLower s = "mysql" ∨ pyLower s = "mysql2" →
      getConnectionClass s = .ok .mysqlDatabaseConnection) ∧
    (pyLower s = "http" → getConnectionClass s = .ok .httpDatabaseConnection) ∧
    (pyLower s ∉ (["sqlite3", "mysql", "mysql2", "http"] : List String) →
      getConnectionClass s = .error ("Unsupported adapter: " ++ s)) := by
  refine ⟨?_, ?_, ?_, ?_⟩
  · intro h
    unfold getConnectionClass
    rw [h]
    rfl
  · rintro (h | h) <;> (unfold getConnectionClass; rw [h]) <;> rfl
  · intro h
    unfold getConnectionClass
    rw [h]
    rfl
  · intro h
    simp only [List.mem_cons, List.not_mem_nil, or_false, not_or] at h
    obtain ⟨h1, h2, h3, h4⟩ := h
    simp [getConnectionClass, connectionClasses, dictGet,
      Ne.symm h1, Ne.symm h2, Ne.symm h3, Ne.symm h4]

/-- Witness for claim C10: mixed-case known kinds dispatch to their
classes and an unknown kind errors, naming the original string. -/
theorem adapter_kind_dispatch_witness :
    getConnectionClass "SQLite3" = .ok .sqliteDatabaseConnection ∧
    getConnectionClass "HTTP" = .ok .httpDatabaseConnection ∧
    getConnectionClass "MySQL2" = .ok .mysqlDatabaseConnection ∧
    getConnectionClass "postgres" = .error "Unsupported adapter: postgres" :=
  ⟨(adapter_kind_dispatch "SQLite3").1 (by decide),
   (adapter_kind_dispatch "HTTP").2.2.1 (by decide),
   (adapter_kind_dispatch "MySQL2").2.1 (Or.inr (by decide)),
   (adapter_kind_dispatch "postgres").2.2.2 (by decide)⟩

/-! ## Claims C1 and C3: adapter teardown -/

/-- `_get_adapter` never touches the close log, and keeps the adapter
cache free of duplicates (a name is appended only when absent). -/
theorem getAdapterSt_state (cfg : Config) (st : PState) (name : String) :
    ((getAdapterSt cfg st name).1.closeCalls = st.closeCalls) ∧
    (st.adapters.Nodup → (getAdapterSt cfg st name).1.adapters.Nodup) := by
  unfold getAdapterSt
  by_cases h1 : name ∈ st.adapters
  · rw [if_pos h1]; exact ⟨rfl, id⟩
  · rw [if_neg h1]
    by_cases h2 : name ∈ cfg.adapterNames
    · rw [if_pos h2]
      refine ⟨rfl, fun hnd => ?_⟩
      refine hnd.append (List.nodup_singleton name) ?_
      intro x hx hx'
      simp only [List.mem_singleton] at hx'
      subst hx'
      exact h1 hx
    · rw [if_neg h2]; exact ⟨rfl, id⟩

/-- One pipeline step never touches the close log and keeps the adapter
cache duplicate-free. -/
theorem processStep_state (cfg : Config) (o : Oracle) (st : PState) (q : QueryCfg) :
    ((processStep cfg o st q).1.closeCalls = st.closeCalls) ∧
    (st.adapters.Nodup → (processStep cfg o st q).1.adapters.Nodup) := by
  unfold processStep
  split
  · exact ⟨rfl, id⟩
  · split
    · next st1 e heq =>
      have hst1 := getAdapterSt_state cfg st q.adapter
      rw [heq] at hst1
      exact hst1
    · next st1 heq =>
      have hst1 := getAdapterSt_state cfg st q.adapter
      rw [heq] at hst1
      split
      · exact hst1
      · split
        · exact hst1
        · exact hst1

/-- Running the steps never touches the close log and keeps the adapter
cache duplicate-free. -/
theorem runSteps_state (cfg : Config) (o : Oracle) :
    ∀ (qs : List QueryCfg) (st : PState),
      ((runSteps cfg o st qs).1.closeCalls = st.closeCalls) ∧
      (st.adapters.Nodup → (runSteps cfg o st qs).1.adapters.Nodup) := by
  intro qs
  induction qs with
  | nil => intro st; exact ⟨rfl, id⟩
  | cons q qs ih =>
    intro st
    have hps := processStep_state cfg o st q
    unfold runSteps
    cases hp : processStep cfg o st q with
    | mk st' e? =>
      rw [hp] at hps
      cases e? with
      | some e => exact hps
      | none =>
        refine ⟨?_, fun hnd => ?_⟩
        · rw [(ih st').1, hps.1]
        · exact (ih st').2 (hps.2 hnd)

/-- The output-rendering stage passes the post-steps state through
unchanged. -/
theorem runPipeline_snd (cfg : Config) (o : Oracle) (st : PState) :
    (runPipeline cfg o st).2 = (runSteps cfg o st cfg.queries).1 := by
  unfold runPipeline
  split
  · next st' e heq => rw [heq]
  · next st' heq =>
    split
    · next e hr => rw [heq]
    · next doc hr => rw [heq]

/-- When every close succeeds, the teardown loop logs one close per
cached adapter, in cache order, and clears the cache. -/
theorem closeAllGo_ok (closeB : String → Except String Unit)
    (hc : ∀ a, closeB a = .ok ()) :
    ∀ (l : List String) (st : PState),
      closeAllGo closeB l st = (⟨st.data, [], st.closeCalls ++ l⟩, Option.none) := by
  intro l
  induction l with
  | nil => intro st; simp [closeAllGo]
  | cons a as ih =>
    intro st
    simp only [closeAllGo, hc a]
    rw [ih]
    simp

/-- When the close of `a` fails after the closes of `pre` succeeded, the
teardown loop stops at `a`: everything after `a` is never invoked, the
cache is not cleared, and the close error escapes. -/
theorem closeAllGo_err (closeB : String → Except String Unit)
    (a e : String) (post : List String) (ha : closeB a = .error e) :
    ∀ (pre : List String) (st : PState), (∀ x ∈ pre, closeB x = .ok ()) →
      closeAllGo closeB (pre ++ a :: post) st =
        (⟨st.data, st.adapters, st.closeCalls ++ pre ++ [a]⟩, some e) := by
  intro pre
  induction pre with
  | nil => intro st hpre; simp [closeAllGo, ha]
  | cons x xs ih =>
    intro st hpre
    have hx : closeB x = .ok () := hpre x (by simp)
    simp only [List.cons_append, closeAllGo, hx, List.append_eq]
    rw [ih ⟨st.data, st.adapters, st.closeCalls ++ [x]⟩
      (fun y hy => hpre y (List.mem_cons_of_mem x hy))]
    simp

/-- Claim C1: when no close fails, `process` closes exactly the adapters
instantiated during the run — one close call per cached adapter, no
duplicates — clears the cache, and returns the pipeline's own result or
error unchanged. -/
theorem pipeline_closes_every_adapter_once (cfg : Config) (o : Oracle)
    (d : List (String × PyVal)) (hc : ∀ a, o.closeB a = .ok ()) :
    (process cfg o d).2.closeCalls = (runPipeline cfg o (initState d)).2.adapters ∧
    (process cfg o d).2.closeCalls.Nodup ∧
    (process cfg o d).2.adapters = [] ∧
    (process cfg o d).1 = (runPipeline cfg o (initState d)).1 := by
  have hrs := runSteps_state cfg o cfg.queries (initState d)
  have hsnd := runPipeline_snd cfg o (initState d)
  cases hrp : runPipeline cfg o (initState d) with
  | mk res st =>
    have hst : st = (runSteps cfg o (initState d) cfg.queries).1 := by
      rw [← hsnd, hrp]
    have hcc : st.closeCalls = [] := by rw [hst, hrs.1]; rfl
    have hnd : st.adapters.Nodup := by
      rw [hst]; exact hrs.2 List.nodup_nil
    unfold process closeAll
    simp only [hrp]
    rw [closeAllGo_ok o.closeB hc st.adapters st]
    simp [hcc, hnd]

/-- The pipeline run of the C1 witness: one declared adapter `a`, one
query against it, every collaborator call succeeding. -/
def cfgW1 : Config := ⟨["a"], [⟨"t1", "a", "select 1"⟩], "out", .null⟩

/-- The collaborators of the C1 witness. -/
def oW1 : Oracle :=
  ⟨fun t _ => .ok t, fun _ _ => .ok [.int 7], fun _ => .ok ()⟩

/-- Witness for claim C1: the witness run instantiates adapter `a`,
closes exactly it, and empties the cache. -/
theorem pipeline_closes_every_adapter_once_witness :
    (process cfgW1 oW1 []).2.closeCalls = (runPipeline cfgW1 oW1 (initState [])).2.adapters ∧
    (process cfgW1 oW1 []).2.closeCalls.Nodup ∧
    (process cfgW1 oW1 []).2.adapters = [] :=
  ⟨(pipeline_closes_every_adapter_once cfgW1 oW1 [] (fun _ => rfl)).1,
   (pipeline_closes_every_adapter_once cfgW1 oW1 [] (fun _ => rfl)).2.1,
   (pipeline_closes_every_adapter_once cfgW1 oW1 [] (fun _ => rfl)).2.2.1⟩

/-- The configuration of the C3 counterexample: two declared adapters
used by two queries. -/
def cfgC3 : Config :=
  ⟨["a", "b"],
   [⟨"t1", "a", "select 1"⟩, ⟨"t2", "b", "select 2"⟩],
   "out", .null⟩

/-- The collaborators of the C3 counterexample: adapter `a` works but its
`close` raises; adapter `b`'s query raises the original pipeline error
`orig`. -/
def oC3 : Oracle :=
  ⟨fun t _ => .ok t,
   fun name _ => if name = "a" then .ok [] else .error "orig",
   fun name => if name = "a" then .error "close boom" else .ok ()⟩

/-- Counterexample to claim C3: both adapters are instantiated and the
pipeline itself fails with `orig`, yet the failing close of `a` is the
only close invoked — `b` is never closed, the cache is not cleared, and
the close error `close boom` replaces (masks) the original error. -/
theorem close_failure_not_tolerated :
    (runPipeline cfgC3 oC3 (initState [])).2.adapters = ["a", "b"] ∧
    (runPipeline cfgC3 oC3 (initState [])).1 = .error "orig" ∧
    (process cfgC3 oC3 []).1 = .error "close boom" ∧
    (process cfgC3 oC3 []).2.closeCalls = ["a"] ∧
    (process cfgC3 oC3 []).2.adapters = ["a", "b"] :=
  ⟨rfl, rfl, rfl, rfl, rfl⟩

/-- Amended claim C3: a failure of one adapter's close is propagated,
not tolerated — the adapters cached after the failing one are never
closed, the cache is not cleared, and the close error is what the caller
receives, replacing the pipeline's own result or error. -/
theorem close_failure_aborts_teardown (cfg : Config) (o : Oracle)
    (d : List (String × PyVal)) (pre post : List String) (a e : String)
    (hadapters : (runPipeline cfg o (initState d)).2.adapters = pre ++ a :: post)
    (hpre : ∀ x ∈ pre, o.closeB x = .ok ())
    (ha : o.closeB a = .error e) :
    (process cfg o d).1 = .error e ∧
    (process cfg o d).2.closeCalls = pre ++ [a] ∧
    (process cfg o d).2.adapters = pre ++ a :: post := by
  have hrs := runSteps_state cfg o cfg.queries (initState d)
  have hsnd := runPipeline_snd cfg o (initState d)
  cases hrp : runPipeline cfg o (initState d) with
  | mk res st =>
    rw [hrp] at hadapters
    have hadp : st.adapters = pre ++ a :: post := hadapters
    have hst : st = (runSteps cfg o (initState d) cfg.queries).1 := by
      rw [← hsnd, hrp]
    have hcc : st.closeCalls = [] := by rw [hst, hrs.1]; rfl
    unfold process closeAll
    simp only [hrp]
    rw [hadp, closeAllGo_err o.closeB a e post ha pre st hpre]
    simp [hcc, hadp]

/-- Witness for the amended claim C3, on the counterexample run: the
close error is returned and only `a` is ever closed. -/
theorem close_failure_aborts_teardown_witness :
    (process cfgC3 oC3 []).1 = .error "close boom" ∧
    (process cfgC3 oC3 []).2.closeCalls = ["a"] := by
  have H := close_failure_aborts_teardown cfgC3 oC3 [] [] ["b"] "a" "close boom"
    rfl (fun x hx => absurd hx (List.not_mem_nil x)) rfl
  exact ⟨H.1, H.2.1⟩

/-! ## Claim C7: CSV parsing -/

/-- Membership after a dictionary assignment: the pair was already there
or its key is the assigned key. -/
theorem mem_dictSet {α : Type} :
    ∀ (kvs : List (String × α)) (k0 : String) (v0 : α) (k : String) (v : α),
      (k, v) ∈ dictSet kvs k0 v0 → (k, v) ∈ kvs ∨ k = k0 := by
  intro kvs k0 v0
  induction kvs with
  | nil =>
    intro k v h
    simp only [dictSet, List.mem_singleton, Prod.mk.injEq] at h
    exact Or.inr h.1
  | cons hd tl ih =>
    intro k v h
    obtain ⟨k', v'⟩ := hd
    by_cases h0 : k' = k0
    · subst h0
      rw [show dictSet ((k', v') :: tl) k' v0 = (k', v0) :: tl from by simp [dictSet]] at h
      rcases List.mem_cons.mp h with h | h
      · exact Or.inr (congrArg Prod.fst h)
      · exact Or.inl (List.mem_cons_of_mem _ h)
    · simp only [dictSet, if_neg h0, List.mem_cons] at h
      rcases h with h | h
      · exact Or.inl (by simp [h])
      · rcases ih k v h with hh | hh
        · exact Or.inl (List.mem_cons_of_mem _ hh)
        · exact Or.inr hh

/-- Keys reachable by folding dictionary assignments over a pair list. -/
theorem mem_foldl_dictSet :
    ∀ (pairs : List (String × String)) (acc : List (String × PyVal)) (k : String) (v : PyVal),
      (k, v) ∈ pairs.foldl (fun acc kv => dictSet acc kv.1 (PyVal.str kv.2)) acc →
      (k, v) ∈ acc ∨ k ∈ pairs.map Prod.fst := by
  intro pairs
  induction pairs with
  | nil => intro acc k v h; exact Or.inl h
  | cons pr prs ih =>
    intro acc k v h
    simp only [List.foldl_cons] at h
    rcases ih _ k v h with hh | hh
    · rcases mem_dictSet acc pr.1 (.str pr.2) k v hh with h2 | h2
      · exact Or.inl h2
      · exact Or.inr (by simp [h2])
    · exact Or.inr (by simp [hh])

/-- Lookup distributes over dictionary concatenation. -/
theorem dictGet_append {α : Type} (l₁ l₂ : List (String × α)) (k : String) :
    dictGet (l₁ ++ l₂) k =
      (match dictGet l₁ k with
       | some v => some v
       | Option.none => dictGet l₂ k) := by
  induction l₁ with
  | nil => rfl
  | cons hd tl ih =>
    obtain ⟨k', v'⟩ := hd
    by_cases h : k' = k
    · simp [dictGet, h]
    · simp [dictGet, h, ih]

/-- Assigning an absent key appends the pair. -/
theorem dictSet_append_of_get_none {α : Type} :
    ∀ (kvs : List (String × α)) (k : String) (v : α), dictGet kvs k = Option.none →
      dictSet kvs k v = kvs ++ [(k, v)] := by
  intro kvs
  induction kvs with
  | nil => intro k v _; rfl
  | cons hd tl ih =>
    intro k v h
    obtain ⟨k', v'⟩ := hd
    simp only [dictGet] at h
    by_cases h0 : k' = k
    · rw [if_pos h0] at h; exact absurd h (by simp)
    · rw [if_neg h0] at h
      simp [dictSet, h0, ih k v h]

/-- Folding assignments of pairwise-distinct fresh keys appends each
pair in order. -/
theorem foldl_dictSet_of_fresh :
    ∀ (pairs : List (String × String)) (acc : List (String × PyVal)),
      (pairs.map Prod.fst).Nodup →
      (∀ k ∈ pairs.map Prod.fst, dictGet acc k = Option.none) →
      pairs.foldl (fun acc kv => dictSet acc kv.1 (PyVal.str kv.2)) acc =
        acc ++ pairs.map (fun pr => (pr.1, PyVal.str pr.2)) := by
  intro pairs
  induction pairs with
  | nil => intro acc _ _; simp
  | cons pr prs ih =>
    intro acc hnd hfresh
    obtain ⟨k0, v0⟩ := pr
    simp only [List.map_cons, List.nodup_cons] at hnd
    have hget : dictGet acc k0 = Option.none := hfresh k0 (by simp)
    simp only [List.foldl_cons]
    rw [show dictSet acc (k0, v0).1 (PyVal.str (k0, v0).2) = dictSet acc k0 (PyVal.str v0) from rfl]
    rw [dictSet_append_of_get_none acc k0 (PyVal.str v0) hget]
    rw [ih (acc ++ [(k0, PyVal.str v0)]) hnd.2 ?_]
    · simp
    · intro k hk
      rw [dictGet_append, hfresh k (by simp [hk])]
      have hne : k0 ≠ k := fun he => hnd.1 (he ▸ hk)
      simp [dictGet, hne]

/-- The keys of a zip are the left list truncated to the right list's
length. -/
theorem map_fst_zip_take : ∀ (h r : List String), (h.zip r).map Prod.fst = h.take r.length := by
  intro h
  induction h with
  | nil => intro r; simp
  | cons a as ih =>
    intro r
    cases r with
    | nil => simp
    | cons b bs => simp [List.zip_cons_cons, ih]

/-- Zipping ignores right-list elements beyond the left list's length. -/
theorem zip_take_self : ∀ (h r : List String), h.zip r = h.zip (r.take h.length) := by
  intro h
  induction h with
  | nil => intro r; simp
  | cons a as ih =>
    intro r
    cases r with
    | nil => simp
    | cons b bs =>
      simp only [List.zip_cons_cons, List.length_cons, List.take_succ_cons]
      rw [← ih bs]

/-- Filtering out the empty rows before mapping is the same as the
if-valued `filterMap`. -/
theorem filterMap_skip_empty (g : List String → PyVal) :
    ∀ rows : List (List String),
      rows.filterMap (fun row => if row.isEmpty then Option.none else some (g row)) =
        (rows.filter (fun r => !r.isEmpty)).map g := by
  intro rows
  induction rows with
  | nil => rfl
  | cons r rs ih =>
    cases r with
    | nil => simpa [List.filterMap_cons, List.filter_cons] using ih
    | cons c cs => simpa [List.filterMap_cons, List.filter_cons] using ih

/-- Every key of a CSV row mapping is one of the headers (columns beyond
the header count are dropped). -/
theorem rowDict_key_mem (headers row : List String) (k : String) (v : PyVal)
    (h : (k, v) ∈ rowDict headers row) : k ∈ headers := by
  rcases mem_foldl_dictSet (headers.zip row) [] k v h with h2 | h2
  · simp at h2
  · rw [map_fst_zip_take] at h2
    exact (List.take_sublist _ _).subset h2

/-- With pairwise-distinct headers, a CSV row mapping is exactly the
zip of the headers with the columns. -/
theorem rowDict_eq_zip (headers row : List String) (hnd : headers.Nodup) :
    rowDict headers row = (headers.zip row).map (fun pr => (pr.1, PyVal.str pr.2)) := by
  unfold rowDict
  rw [foldl_dictSet_of_fresh (headers.zip row) [] ?_ ?_]
  · simp
  · rw [map_fst_zip_take]
    exact List.Nodup.sublist (List.take_sublist _ _) hnd
  · intro k _
    rfl

/-- Columns beyond the header count never influence a CSV row mapping. -/
theorem rowDict_drop_trailing (headers row : List String) :
    rowDict headers row = rowDict headers (row.take headers.length) := by
  unfold rowDict
  rw [← zip_take_self]

/-- Claim C7: CSV parsing takes the first record as the lowercased
header row, skips records with no columns, zips each remaining record
against the headers (dropping columns beyond the header count), and
parses `"ID,Name\n1,Ann"` to `[{"id": "1", "name": "Ann"}]`. -/
theorem csv_parse_header_zip :
    (parseCsvResponse "ID,Name\n1,Ann" =
      .ok [.dict [("id", .str "1"), ("name", .str "Ann")]]) ∧
    (∀ (body : String) (hdr : List String) (rows : List (List String)),
      csvRecords body = hdr :: rows →
      ∃ out, parseCsvResponse body = .ok out ∧
        out.length = (rows.filter (fun r => !r.isEmpty)).length ∧
        ∀ d ∈ out, ∃ row ∈ rows, row.isEmpty = false ∧
          d = .dict (rowDict (hdr.map pyLower) row)) ∧
    (∀ (headers row : List String) (k : String) (v : PyVal),
      (k, v) ∈ rowDict headers row → k ∈ headers) ∧
    (∀ headers row : List String, headers.Nodup →
      rowDict headers row = (headers.zip row).map (fun pr => (pr.1, PyVal.str pr.2))) ∧
    (∀ headers row : List String,
      rowDict headers row = rowDict headers (row.take headers.length)) := by
  refine ⟨rfl, ?_, rowDict_key_mem, rowDict_eq_zip, rowDict_drop_trailing⟩
  intro body hdr rows h
  simp only [parseCsvResponse, h]
  rw [filterMap_skip_empty (fun row => .dict (rowDict (hdr.map pyLower) row)) rows]
  refine ⟨_, rfl, by simp, ?_⟩
  intro d hd
  simp only [List.mem_map] at hd
  obtain ⟨row, hrow, hdrow⟩ := hd
  rw [List.mem_filter] at hrow
  exact ⟨row, hrow.1, by simpa using hrow.2, hdrow.symm⟩

/-- Witness for claim C7: with distinct headers the row mapping is the
plain zip, and a key of a row mapping is one of the headers. -/
theorem csv_parse_header_zip_witness :
    rowDict ["id", "name"] ["1", "Ann"] = [("id", .str "1"), ("name", .str "Ann")] ∧
    "id" ∈ (["id", "name"] : List String) :=
  ⟨csv_parse_header_zip.2.2.2.1 ["id", "name"] ["1", "Ann"] (by decide),
   csv_parse_header_zip.2.2.1 ["id", "name"] ["1", "Ann"] "id" (.str "1")
     (List.mem_cons_self _ _)⟩

end QuerySpec
